import Mathlib

/-!
Verification of the `thrilled-vibe-starter` repository: a shallow embedding
of its version-management script (`scripts/version-manager.js`) and its
template registry (`index.js`), with theorems about the behaviour claimed
by the specification.

Modelling conventions:
* Semantic versions are release triples `major.minor.patch` (the versions
  this repository manipulates carry no prerelease tag); `semver.inc` on
  such a triple follows node-semver's rules for release versions.
* JavaScript strings are Lean `String`s; case-insensitive tests lower-case
  both sides exactly as the source does with `.toLowerCase()`.
* The filesystem is an explicit state value (association list of file
  paths to contents plus a list of ensured directories); `fs-extra` calls
  become pure state transitions.
* Terminal colouring (`chalk`) is dropped: messages are the raw strings.
-/

namespace ThrilledVibe

/-- A release semantic version `major.minor.patch`. -/
structure SemVer where
  major : Nat
  minor : Nat
  patch : Nat
deriving DecidableEq, Repr

/-- `semver.inc(v, 'major')` on a release version: `x.y.z ↦ (x+1).0.0`. -/
def semverIncMajor (v : SemVer) : SemVer :=
  { major := v.major + 1, minor := 0, patch := 0 }

/-- `semver.inc(v, 'minor')` on a release version: `x.y.z ↦ x.(y+1).0`. -/
def semverIncMinor (v : SemVer) : SemVer :=
  { major := v.major, minor := v.minor + 1, patch := 0 }

/-- `semver.inc(v, 'patch')` on a release version: `x.y.z ↦ x.y.(z+1)`. -/
def semverIncPatch (v : SemVer) : SemVer :=
  { major := v.major, minor := v.minor, patch := v.patch + 1 }

/-- Embeds `VersionManager.getSemverIncrease(from, to)`
(`scripts/version-manager.js` lines 78–83): compares the three components
in order and returns the first strictly increased one, else `"none"`. -/
def getSemverIncrease (f t : SemVer) : String :=
  if f.major < t.major then "major"
  else if f.minor < t.minor then "minor"
  else if f.patch < t.patch then "patch"
  else "none"

/-- Result of `VersionManager.getNextVersion`: a release version, a
prerelease (`semver.inc(current, 'prerelease', 'alpha')` yields
`x.y.(z+1)-alpha.0` from a release version), or the thrown error. -/
inductive NextVersionResult where
  | release (v : SemVer)
  | prerelease (v : SemVer) (tag : String) (n : Nat)
  | invalid (msg : String)
deriving DecidableEq, Repr

/-- Embeds `VersionManager.getNextVersion(type)`
(`scripts/version-manager.js` lines 130–145), with the manager's
`currentVersion` passed explicitly. -/
def getNextVersion (current : SemVer) (t : String) : NextVersionResult :=
  if t = "major" then .release (semverIncMajor current)
  else if t = "minor" then .release (semverIncMinor current)
  else if t = "patch" then .release (semverIncPatch current)
  else if t = "prerelease" then
    .prerelease (semverIncPatch current) "alpha" 0
  else .invalid ("Invalid version type: " ++ t)

/-- `l` begins with `sub` (character-list version of JavaScript
`String.prototype.startsWith`). -/
def startsList : List Char → List Char → Bool
  | [], _ => true
  | _ :: _, [] => false
  | a :: s, b :: l => a = b && startsList s l

/-- `l` has `sub` as a contiguous sublist (character-list version of
JavaScript `String.prototype.includes`). -/
def containsList (sub : List Char) : List Char → Bool
  | [] => startsList sub []
  | l₀ :: l => startsList sub (l₀ :: l) || containsList sub l

/-- JavaScript `s.startsWith(sub)`. -/
def strStarts (s sub : String) : Bool := startsList sub.data s.data

/-- JavaScript `s.includes(sub)`. -/
def strContains (s sub : String) : Bool := containsList sub.data s.data

/-- JavaScript `s.toLowerCase()` for the ASCII strings this program
handles, written over the character list so that it evaluates by
kernel reduction. -/
def strToLower (s : String) : String := ⟨s.data.map Char.toLower⟩

/-- A parsed commit record as produced by `VersionManager.parseCommits`
(`scripts/version-manager.js` lines 164–177). -/
structure Commit where
  hash : String
  message : String
  author : String
  date : String
  body : String
deriving DecidableEq, Repr

/-- The eleven buckets of `VersionManager.categorizeCommits`. -/
inductive Bucket where
  | breaking | features | fixes | docs | style | refactor
  | test | chore | security | performance | other
deriving DecidableEq, Repr

/-- The if/else chain of `VersionManager.categorizeCommits`
(`scripts/version-manager.js` lines 197–223): which bucket a single
commit is pushed into, first match wins, over the lower-cased subject
`message` and body. -/
def classify (c : Commit) : Bucket :=
  let m := strToLower c.message
  let b := strToLower c.body
  if strContains m "breaking" || strContains b "breaking change" then .breaking
  else if strStarts m "feat" || strStarts m "feature" then .features
  else if strStarts m "fix" then .fixes
  else if strStarts m "docs" then .docs
  else if strStarts m "style" then .style
  else if strStarts m "refactor" then .refactor
  else if strStarts m "test" then .test
  else if strStarts m "perf" then .performance
  else if strStarts m "security" || strContains m "vulnerability" then .security
  else if strStarts m "chore" then .chore
  else .other

/-- The classification precedence exactly as the claim words it: the body
test is `contains "breaking"` rather than the code's
`contains "breaking change"`; all other predicates coincide with
`classify`. Used only to compare the claim against the code. -/
def classifySpecClaim (c : Commit) : Bucket :=
  let m := strToLower c.message
  let b := strToLower c.body
  if strContains m "breaking" || strContains b "breaking" then .breaking
  else if strStarts m "feat" || strStarts m "feature" then .features
  else if strStarts m "fix" then .fixes
  else if strStarts m "docs" then .docs
  else if strStarts m "style" then .style
  else if strStarts m "refactor" then .refactor
  else if strStarts m "test" then .test
  else if strStarts m "perf" then .performance
  else if strStarts m "security" || strContains m "vulnerability" then .security
  else if strStarts m "chore" then .chore
  else .other

/-- The record of eleven bucket lists built by
`VersionManager.categorizeCommits` (`scripts/version-manager.js`
lines 183–195), each starting empty. -/
structure Categories where
  breaking : List Commit := []
  features : List Commit := []
  fixes : List Commit := []
  docs : List Commit := []
  style : List Commit := []
  refactor : List Commit := []
  test : List Commit := []
  chore : List Commit := []
  security : List Commit := []
  performance : List Commit := []
  other : List Commit := []
deriving DecidableEq, Repr

/-- `categories.<bucket>.push(commit)`: append `c` to the bucket `b`
selected by the if/else chain. -/
def pushBucket (cats : Categories) (b : Bucket) (c : Commit) : Categories :=
  match b with
  | .breaking => { cats with breaking := cats.breaking ++ [c] }
  | .features => { cats with features := cats.features ++ [c] }
  | .fixes => { cats with fixes := cats.fixes ++ [c] }
  | .docs => { cats with docs := cats.docs ++ [c] }
  | .style => { cats with style := cats.style ++ [c] }
  | .refactor => { cats with refactor := cats.refactor ++ [c] }
  | .test => { cats with test := cats.test ++ [c] }
  | .chore => { cats with chore := cats.chore ++ [c] }
  | .security => { cats with security := cats.security ++ [c] }
  | .performance => { cats with performance := cats.performance ++ [c] }
  | .other => { cats with other := cats.other ++ [c] }

/-- Project the bucket list named by `b` out of a `Categories` record. -/
def bucketOf (cats : Categories) (b : Bucket) : List Commit :=
  match b with
  | .breaking => cats.breaking
  | .features => cats.features
  | .fixes => cats.fixes
  | .docs => cats.docs
  | .style => cats.style
  | .refactor => cats.refactor
  | .test => cats.test
  | .chore => cats.chore
  | .security => cats.security
  | .performance => cats.performance
  | .other => cats.other

/-- Embeds `VersionManager.categorizeCommits(commits)`
(`scripts/version-manager.js` lines 182–227): `commits.forEach` pushing
each commit into the first matching bucket. -/
def categorizeCommits (commits : List Commit) : Categories :=
  commits.foldl (fun cats c => pushBucket cats (classify c) c) {}

/-- Render a `SemVer` the way node-semver prints release versions. -/
def semverToString (v : SemVer) : String :=
  toString v.major ++ "." ++ toString v.minor ++ "." ++ toString v.patch

/-- Render a `NextVersionResult` as the version string the script
interpolates into its messages. -/
def nextVersionToString : NextVersionResult → String
  | .release v => semverToString v
  | .prerelease v tag n => semverToString v ++ "-" ++ tag ++ "." ++ toString n
  | .invalid m => m

/-- Embeds `VersionManager.getVersionReasoning(categories)`
(`scripts/version-manager.js` lines 111–125). -/
def getVersionReasoning (cats : Categories) : String :=
  let reasons : List String :=
    (if cats.breaking.length > 0 then
      [toString cats.breaking.length ++ " breaking change(s)"] else [])
    ++ (if cats.features.length > 0 then
      [toString cats.features.length ++ " new feature(s)"] else [])
    ++ (if cats.fixes.length > 0 then
      [toString cats.fixes.length ++ " bug fix(es)"] else [])
  if reasons.length > 0 then String.intercalate ", " reasons
  else "Minor changes and improvements"

/-- The record returned by `VersionManager.suggestNextVersion`. -/
structure Suggestion where
  type : String
  version : NextVersionResult
  reasoning : String
  commits : Nat
deriving DecidableEq, Repr

/-- Embeds `VersionManager.suggestNextVersion()`
(`scripts/version-manager.js` lines 88–106), with the commit list since
the last tag and the manager's `currentVersion` passed explicitly. -/
def suggestNextVersion (cur : SemVer) (commits : List Commit) : Suggestion :=
  let categories := categorizeCommits commits
  let suggestedType :=
    if categories.breaking.length > 0 then "major"
    else if categories.features.length > 0 then "minor"
    else "patch"
  { type := suggestedType,
    version := getNextVersion cur suggestedType,
    reasoning := getVersionReasoning categories,
    commits := commits.length }

/-- The text printed by the `suggest` CLI branch
(`scripts/version-manager.js` lines 540–545), colours dropped. -/
def suggestCommandOutput (cur : SemVer) (commits : List Commit) : String :=
  let s := suggestNextVersion cur commits
  "Suggested next version: " ++ nextVersionToString s.version
    ++ " (" ++ s.type ++ ")\n"
    ++ "Reasoning: " ++ s.reasoning

/-- One element of the persisted `versions` array
(`scripts/version-manager.js` lines 55–64). -/
structure VersionEntry where
  version : SemVer
  type : String
  description : String
  date : String
  commits : Nat
  commitDetails : List Commit
  previousVersion : SemVer
  semverIncrease : String
deriving DecidableEq, Repr

/-- The persisted `.version-history.json` document
(`scripts/version-manager.js` lines 30–35 and 66–69). -/
structure VersionHistory where
  versions : List VersionEntry
  lastRelease : Option VersionEntry
  totalReleases : Nat
  created : String
  updated : Option String := none
deriving DecidableEq, Repr

/-- The fresh document written by `VersionManager.initVersionHistory`
when `.version-history.json` does not exist
(`scripts/version-manager.js` lines 30–35). -/
def initialVersionHistory (now : String) : VersionHistory :=
  { versions := [], lastRelease := none, totalReleases := 0, created := now }

/-- Embeds `VersionManager.initVersionHistory()`
(`scripts/version-manager.js` lines 28–39) as a transition on the on-disk
document (`none` = file absent): writes the initial document only when
the file does not exist, otherwise leaves the file untouched. -/
def initVersionHistory (disk : Option VersionHistory) (now : String) :
    Option VersionHistory :=
  match disk with
  | some h => some h
  | none => some (initialVersionHistory now)

/-- Embeds `VersionManager.getVersionHistory()`
(`scripts/version-manager.js` lines 44–47): initialize if absent, then
read; returns the parsed document and the resulting on-disk state. -/
def getVersionHistory (disk : Option VersionHistory) (now : String) :
    VersionHistory × Option VersionHistory :=
  match initVersionHistory disk now with
  | some h => (h, some h)
  | none => (initialVersionHistory now, some (initialVersionHistory now))

/-- Embeds `VersionManager.addVersionToHistory(version, type, description,
commits)` (`scripts/version-manager.js` lines 52–73): builds the entry,
unshifts it onto `versions`, sets `lastRelease`, increments
`totalReleases`, stamps `updated`, and writes the document back. Returns
the entry and the new on-disk state. -/
def addVersionToHistory (currentVersion : SemVer) (disk : Option VersionHistory)
    (version : SemVer) (t : String) (description : String)
    (commits : List Commit) (now : String) :
    VersionEntry × Option VersionHistory :=
  let history := (getVersionHistory disk now).1
  let versionEntry : VersionEntry :=
    { version := version, type := t, description := description, date := now,
      commits := commits.length, commitDetails := commits.take 10,
      previousVersion := currentVersion,
      semverIncrease := getSemverIncrease currentVersion version }
  let history' : VersionHistory :=
    { history with
      versions := versionEntry :: history.versions,
      lastRelease := some versionEntry,
      totalReleases := history.totalReleases + 1,
      updated := some now }
  (versionEntry, some history')

/-- Outcome of the zero-commit gate at the top of
`VersionManager.interactiveVersion()` (`scripts/version-manager.js`
lines 398–404). -/
inductive InteractiveOutcome where
  | nothingToRelease (msg : String)
  | proceed
deriving DecidableEq, Repr

/-- The zero-commit gate of `VersionManager.interactiveVersion()`: with no
commits since the last tag it prints the nothing-to-release warning and
returns; otherwise the interactive flow proceeds. -/
def interactiveVersionGate (commits : List Commit) : InteractiveOutcome :=
  if commits.length = 0 then
    .nothingToRelease "⚠️  No commits found since last tag. Nothing to release."
  else .proceed

/-- The `suggest` CLI branch as a transition on the on-disk
`.version-history.json` state: it only calls `suggestNextVersion` (git
log, pure computation) and prints — it never reads or writes the history
file, so the disk state passes through unchanged. -/
def suggestCommand (cur : SemVer) (commits : List Commit)
    (disk : Option VersionHistory) : String × Option VersionHistory :=
  (suggestCommandOutput cur commits, disk)

/-- The effect of the `status` CLI branch
(`VersionManager.displayVersionStatus`, lines 327–357) on the on-disk
history document: it reads the history via `getVersionHistory`
(initializing the file only when absent) and performs no other history
write. -/
def displayVersionStatusHistoryEffect (disk : Option VersionHistory)
    (now : String) : Option VersionHistory :=
  (getVersionHistory disk now).2

/-- The keyword alternation of the prefix-stripping regex
`/^(feat|fix|docs|style|refactor|test|chore|perf|security):\s*/i` in
`generateChangelogEntry` (`scripts/version-manager.js` line 257). -/
def commitTypeKeywords : List String :=
  ["feat", "fix", "docs", "style", "refactor", "test", "chore", "perf", "security"]

/-- Does the subject line start (case-insensitively) with `k` followed by
a colon? One alternative of the stripping regex. -/
def matchTypeColon (m : List Char) (k : String) : Bool :=
  startsList (k.data ++ [':']) (m.map Char.toLower)

/-- `commit.message.replace(/^(feat|fix|docs|style|refactor|test|chore|perf|security):\s*rest/i, '')`:
strip a leading conventional-commit keyword, the colon, and any
whitespace after it; leave the message unchanged when no alternative
matches at the start. -/
def cleanCommitMessage (msg : String) : String :=
  match commitTypeKeywords.find? (fun k => matchTypeColon msg.data k) with
  | some k => ⟨(msg.data.drop (k.data.length + 1)).dropWhile Char.isWhitespace⟩
  | none => msg

/-- One element of the `sections` array of `generateChangelogEntry`
(`scripts/version-manager.js` lines 240–251). -/
structure ChangelogSection where
  title : String
  items : List Commit
  icon : String
deriving DecidableEq, Repr

/-- The fixed `sections` array of `generateChangelogEntry`: ten buckets in
display order; the `other` bucket is not among them. -/
def changelogSections (cats : Categories) : List ChangelogSection :=
  [ ⟨"🚨 BREAKING CHANGES", cats.breaking, "⚠️"⟩,
    ⟨"✨ New Features", cats.features, "🎉"⟩,
    ⟨"🐛 Bug Fixes", cats.fixes, "🔧"⟩,
    ⟨"🔒 Security", cats.security, "🛡️"⟩,
    ⟨"⚡ Performance", cats.performance, "🚀"⟩,
    ⟨"📚 Documentation", cats.docs, "📝"⟩,
    ⟨"♻️ Code Refactoring", cats.refactor, "🔄"⟩,
    ⟨"🧪 Tests", cats.test, "✅"⟩,
    ⟨"💄 Styling", cats.style, "🎨"⟩,
    ⟨"🔧 Maintenance", cats.chore, "🛠️"⟩ ]

/-- Render one section: skipped entirely when empty, otherwise a `###`
heading followed by one bullet line per commit, hash linked. -/
def renderSection (s : ChangelogSection) : String :=
  if s.items.length > 0 then
    "### " ++ s.title ++ "\n\n"
    ++ String.join (s.items.map (fun c =>
        "- " ++ s.icon ++ " " ++ cleanCommitMessage c.message
        ++ " ([" ++ c.hash ++ "](../../commit/" ++ c.hash ++ "))\n"))
    ++ "\n"
  else ""

/-- Embeds `VersionManager.generateChangelogEntry(version, categories,
description)` (`scripts/version-manager.js` lines 232–265), the release
date passed explicitly. -/
def generateChangelogEntry (version : String) (cats : Categories)
    (description : String) (date : String) : String :=
  "## [" ++ version ++ "] - " ++ date ++ "\n\n"
  ++ (if description ≠ "" then description ++ "\n\n" else "")
  ++ String.join ((changelogSections cats).map renderSection)

/-- The commits that contribute a bullet line to a changelog entry: the
concatenation of the items of the ten displayed sections. -/
def renderedCommits (cats : Categories) : List Commit :=
  ((changelogSections cats).map (fun s => s.items)).flatten

/-- The data computed by `VersionManager.quickPatch(description)`
(`scripts/version-manager.js` lines 373–392). -/
structure QuickPatchData where
  newVersion : NextVersionResult
  changelogEntry : String
  historyEntry : VersionEntry
  historyAfter : Option VersionHistory
deriving Repr

/-- Embeds `VersionManager.quickPatch(description)`
(`scripts/version-manager.js` lines 373–392): unconditionally computes
`getNextVersion('patch')`, categorizes the commits only to build the
changelog entry, and records a `'patch'`-typed history entry; `nv`
extracts the release triple that `getNextVersion` on `"patch"` always
produces. -/
def quickPatch (cur : SemVer) (disk : Option VersionHistory)
    (commits : List Commit) (description : String) (now : String) :
    QuickPatchData :=
  let newVersion := getNextVersion cur "patch"
  let nv : SemVer :=
    match newVersion with
    | .release v => v
    | .prerelease v _ _ => v
    | .invalid _ => cur
  let categories := categorizeCommits commits
  let changelogEntry :=
    generateChangelogEntry (nextVersionToString newVersion) categories description now
  let desc' := if description ≠ "" then description else "Patch release"
  let (entry, disk') := addVersionToHistory cur disk nv "patch" desc' commits now
  { newVersion := newVersion, changelogEntry := changelogEntry,
    historyEntry := entry, historyAfter := disk' }

/-- One template of the registry: display name, description, and the
relative path of the source document (`index.js`, `TEMPLATE_STRUCTURE`
leaves). -/
structure TemplateEntry where
  name : String
  description : String
  source : String
deriving DecidableEq, Repr

/-- One category of the registry, its children in insertion order. -/
structure TemplateCategory where
  name : String
  description : String
  children : List (String × TemplateEntry)
deriving DecidableEq, Repr

/-- The `fe.children.react` leaf of `TEMPLATE_STRUCTURE`. -/
def reactEntry : TemplateEntry :=
  ⟨"React",
   "React with TypeScript, React Query, Zustand, React Router DOM, CSS Modules, React Aria, and Yarn",
   "templates/fe/react/instructions.md"⟩

/-- The `fe.children.vanilla` leaf of `TEMPLATE_STRUCTURE`. -/
def vanillaEntry : TemplateEntry :=
  ⟨"Vanilla JavaScript",
   "Vanilla JavaScript/TypeScript with Vite, modern CSS, and accessibility features",
   "templates/fe/vanilla/instructions.md"⟩

/-- The `be.children.node-express` leaf of `TEMPLATE_STRUCTURE`. -/
def nodeExpressEntry : TemplateEntry :=
  ⟨"Node.js + Express",
   "Node.js Express API with TypeScript, Prisma, PostgreSQL, Redis, and JWT authentication",
   "templates/be/node-express/instructions.md"⟩

/-- The `be.children.python-django` leaf of `TEMPLATE_STRUCTURE`. -/
def pythonDjangoEntry : TemplateEntry :=
  ⟨"Python + Django",
   "Django REST API with PostgreSQL, Redis, Celery, and JWT authentication",
   "templates/be/python-django/instructions.md"⟩

/-- The `github.children.workflows` leaf of `TEMPLATE_STRUCTURE`. -/
def workflowsEntry : TemplateEntry :=
  ⟨"GitHub Workflows",
   "Complete GitHub Actions workflows for CI/CD, testing, and automation",
   "templates/github/workflows/instructions.md"⟩

/-- The `fe` category of `TEMPLATE_STRUCTURE`, children in insertion order. -/
def feCategory : TemplateCategory :=
  ⟨"Frontend", "Frontend application templates",
   [("react", reactEntry), ("vanilla", vanillaEntry)]⟩

/-- The `be` category of `TEMPLATE_STRUCTURE`, children in insertion order. -/
def beCategory : TemplateCategory :=
  ⟨"Backend", "Backend API templates",
   [("node-express", nodeExpressEntry), ("python-django", pythonDjangoEntry)]⟩

/-- The `github` category of `TEMPLATE_STRUCTURE`. -/
def githubCategory : TemplateCategory :=
  ⟨"GitHub", "GitHub repository setup templates",
   [("workflows", workflowsEntry)]⟩

/-- The static registry `TEMPLATE_STRUCTURE` of `index.js` lines 8–52,
keys in object-literal insertion order (the order `Object.keys`
enumerates). -/
def TEMPLATE_STRUCTURE : List (String × TemplateCategory) :=
  [("fe", feCategory), ("be", beCategory), ("github", githubCategory)]

/-- A filesystem state: files as path-to-content associations, where a
later write shadows earlier ones (the head of the list is most recent),
plus the list of directories ensured to exist. -/
structure Fsys where
  files : List (String × String)
  dirs : List String
deriving DecidableEq, Repr

/-- Read a file (`fs.readFile` / the source side of `fs.copy`). -/
def Fsys.read (fs : Fsys) (p : String) : Option String := fs.files.lookup p

/-- `fs.existsSync(p)` for a file path. -/
def Fsys.fileExists (fs : Fsys) (p : String) : Bool := (fs.read p).isSome

/-- `fs.ensureDir(d)`: record the directory as existing. -/
def Fsys.ensureDir (fs : Fsys) (d : String) : Fsys :=
  { fs with dirs := d :: fs.dirs }

/-- The destination side of `fs.copy`: write `content` at `p`,
overwriting whatever was there. -/
def Fsys.write (fs : Fsys) (p content : String) : Fsys :=
  { fs with files := (p, content) :: fs.files }

/-- `path.join` for the two-segment joins this program performs. -/
def pathJoin (a b : String) : String := a ++ "/" ++ b

/-- Embeds `generatePRD(category, template, targetDir)` (`index.js`
lines 121–142) with `__dirname` passed as `dirn` and the filesystem
explicit. The thrown error message or the returned target path is paired
with the filesystem state after the call; `path.dirname(targetPath)` is
`targetDir/.github`. The `existsSync` guard and the read performed by
`fs.copy` are the single `read` of the source path. -/
def generatePRD (dirn : String) (fs : Fsys) (category template targetDir : String) :
    Except String String × Fsys :=
  match TEMPLATE_STRUCTURE.lookup category with
  | none => (.error ("Category \"" ++ category ++ "\" not found"), fs)
  | some cat =>
    match cat.children.lookup template with
    | none =>
      (.error ("Template \"" ++ template ++ "\" not found in category \""
        ++ category ++ "\""), fs)
    | some selectedTemplate =>
      let sourcePath := pathJoin dirn selectedTemplate.source
      let targetPath := pathJoin targetDir ".github/instructions.md"
      match fs.read sourcePath with
      | none => (.error ("Template file not found: " ++ selectedTemplate.source), fs)
      | some content =>
        let fs1 := fs.ensureDir (pathJoin targetDir ".github")
        (.ok targetPath, fs1.write targetPath content)

/-- Embeds `getAvailableCategories()` (`index.js` line 144). -/
def getAvailableCategories : List String := TEMPLATE_STRUCTURE.map Prod.fst

/-- The full `category/template` composite list the no-argument branch of
`getAvailableTemplates` accumulates with its nested `forEach`/`push`. -/
def allCompositeTemplates : List String :=
  (TEMPLATE_STRUCTURE.map (fun p =>
      p.2.children.map (fun q => p.1 ++ "/" ++ q.1))).flatten

/-- Embeds `getAvailableTemplates(category)` (`index.js` lines 146–163).
The guard is the JavaScript truthiness test `if (!category)`: both an
omitted argument (`none`) and the empty string are falsy and take the
all-composites branch; a truthy (non-empty) category is looked up,
yielding its template keys in order or a thrown error when unknown. -/
def getAvailableTemplates (category : Option String) : Except String (List String) :=
  match category with
  | none => .ok allCompositeTemplates
  | some c =>
    if c = "" then .ok allCompositeTemplates
    else
      match TEMPLATE_STRUCTURE.lookup c with
      | none => .error ("Category \"" ++ c ++ "\" not found")
      | some cat => .ok (cat.children.map Prod.fst)

/-- The record returned by `getTemplateInfo`. -/
structure TemplateInfo where
  category : String
  template : String
  description : String
  source : String
deriving DecidableEq, Repr

/-- Embeds `getTemplateInfo(category, template)` (`index.js`
lines 165–176): `none` models the `null` it returns for an unknown pair. -/
def getTemplateInfo (category template : String) : Option TemplateInfo :=
  match TEMPLATE_STRUCTURE.lookup category with
  | none => none
  | some cat =>
    match cat.children.lookup template with
    | none => none
    | some t =>
      some { category := cat.name, template := t.name,
             description := t.description, source := t.source }

end ThrilledVibe

namespace ThrilledVibe

/-- Pushing into bucket `b'` changes only bucket `b'`, by appending the
pushed commit. -/
theorem bucketOf_pushBucket (cats : Categories) (b' b : Bucket) (c : Commit) :
    bucketOf (pushBucket cats b' c) b =
      if b = b' then bucketOf cats b ++ [c] else bucketOf cats b := by
  cases b' <;> cases b <;> simp [pushBucket, bucketOf]

/-- Each bucket of `categorizeCommits commits` is the sublist of
`commits` classified into it, in input order. -/
theorem bucketOf_categorizeCommits (commits : List Commit) (b : Bucket) :
    bucketOf (categorizeCommits commits) b =
      commits.filter (fun c => classify c = b) := by
  have key : ∀ (l : List Commit) (cats : Categories),
      bucketOf (l.foldl (fun cs c => pushBucket cs (classify c) c) cats) b =
        bucketOf cats b ++ l.filter (fun c => classify c = b) := by
    intro l
    induction l with
    | nil => intro cats; simp
    | cons c l ih =>
      intro cats
      simp only [List.foldl_cons, ih, bucketOf_pushBucket]
      by_cases hb : b = classify c
      · simp [hb, List.filter_cons]
      · have hb' : ¬ (classify c = b) := fun h => hb h.symm
        simp [hb, hb', List.filter_cons]
  have h0 : bucketOf ({} : Categories) b = [] := by cases b <;> rfl
  simpa [h0] using key commits {}

/-- C2, counterexample. The claim's precedence places a commit whose body
merely contains `"breaking"` into the breaking bucket; the code only
checks the body for the substring `"breaking change"`. The commit with
subject `"feat: drop old api"` and body `"breaking api removal"` goes to
the features bucket in the code, while the claim as stated puts it in the
breaking bucket. -/
theorem classify_body_breaking_counterexample :
    classify ⟨"abc1234", "feat: drop old api", "a", "2024-01-01", "breaking api removal"⟩
        = .features
    ∧ classifySpecClaim ⟨"abc1234", "feat: drop old api", "a", "2024-01-01", "breaking api removal"⟩
        = .breaking := by
  constructor <;> decide

/-- C2, amended. Commit classification is total and mutually exclusive
under the corrected precedence (body test: contains `"breaking change"`):
a commit `c` is a member of bucket `b` of `categorizeCommits commits`
precisely when `c` occurs in `commits` and the first matching predicate
of the if/else chain (`classify`) selects `b`; consequently every commit
lands in exactly one bucket and the bucket sizes sum to the number of
commits. -/
theorem categorizeCommits_total_exclusive (commits : List Commit) :
    (∀ (c : Commit) (b : Bucket),
      c ∈ bucketOf (categorizeCommits commits) b ↔ c ∈ commits ∧ classify c = b)
    ∧ (∀ c ∈ commits, ∃! b, c ∈ bucketOf (categorizeCommits commits) b) := by
  have hmem : ∀ (c : Commit) (b : Bucket),
      c ∈ bucketOf (categorizeCommits commits) b ↔ c ∈ commits ∧ classify c = b := by
    intro c b
    rw [bucketOf_categorizeCommits]
    simp [List.mem_filter]
  refine ⟨hmem, ?_⟩
  intro c hc
  refine ⟨classify c, (hmem c (classify c)).2 ⟨hc, rfl⟩, ?_⟩
  intro b hb
  exact ((hmem c b).1 hb).2.symm

/-- C2, witness: the amended theorem applied to a concrete one-commit
history — the commit `"fix: null check"` lands in the fixes bucket and
only there. -/
theorem categorizeCommits_total_exclusive_witness :
    (⟨"h1", "fix: null check", "a", "d", ""⟩ : Commit) ∈
      bucketOf (categorizeCommits [⟨"h1", "fix: null check", "a", "d", ""⟩])
        Bucket.fixes :=
  ((categorizeCommits_total_exclusive [⟨"h1", "fix: null check", "a", "d", ""⟩]).1
    ⟨"h1", "fix: null check", "a", "d", ""⟩ Bucket.fixes).2
    ⟨by decide, by decide⟩

/-- C1, counterexample. The claim says that whenever
`getSemverIncrease(previousVersion, version)` is not `"none"`, applying the
returned bump type to `previousVersion` reproduces `version`. At
`previousVersion = 1.0.0`, `version = 3.0.0` the function returns
`"major"`, yet the major bump of `1.0.0` is `2.0.0 ≠ 3.0.0`. -/
theorem getSemverIncrease_not_inverse_of_bump :
    getSemverIncrease ⟨1, 0, 0⟩ ⟨3, 0, 0⟩ = "major"
    ∧ semverIncMajor ⟨1, 0, 0⟩ ≠ (⟨3, 0, 0⟩ : SemVer) := by
  constructor
  · rfl
  · decide

/-- C1, amended. `getSemverIncrease` always returns exactly one of
`"major"`, `"minor"`, `"patch"`, `"none"`; and when `version` is obtained
from `previousVersion` by exactly one standard semantic-version increment
(major `x+1.0.0`, minor `x.y+1.0`, patch `x.y.z+1`), the function returns
that bump type, and it returns `"none"` exactly on equal versions'
components being non-increasing throughout — in particular on equal
versions. -/
theorem getSemverIncrease_amended (f t : SemVer) :
    (getSemverIncrease f t = "major" ∨ getSemverIncrease f t = "minor"
      ∨ getSemverIncrease f t = "patch" ∨ getSemverIncrease f t = "none")
    ∧ (t = semverIncMajor f → getSemverIncrease f t = "major")
    ∧ (t = semverIncMinor f → getSemverIncrease f t = "minor")
    ∧ (t = semverIncPatch f → getSemverIncrease f t = "patch")
    ∧ (t = f → getSemverIncrease f t = "none") := by
  refine ⟨?_, ?_, ?_, ?_, ?_⟩
  · unfold getSemverIncrease
    split
    · exact Or.inl rfl
    · split
      · exact Or.inr (Or.inl rfl)
      · split
        · exact Or.inr (Or.inr (Or.inl rfl))
        · exact Or.inr (Or.inr (Or.inr rfl))
  · rintro rfl
    simp [getSemverIncrease, semverIncMajor]
  · rintro rfl
    simp [getSemverIncrease, semverIncMinor]
  · rintro rfl
    simp [getSemverIncrease, semverIncPatch]
  · rintro rfl
    simp [getSemverIncrease]

/-- C1, witness: the amended theorem applied at `1.2.3` and its minor
bump `1.3.0`. -/
theorem getSemverIncrease_amended_witness :
    getSemverIncrease ⟨1, 2, 3⟩ ⟨1, 3, 0⟩ = "minor" :=
  (getSemverIncrease_amended ⟨1, 2, 3⟩ ⟨1, 3, 0⟩).2.2.1 rfl

/-- A bucket of a categorization is non-empty exactly when some commit of
the input classifies into it. -/
theorem bucket_length_pos_iff (commits : List Commit) (b : Bucket) :
    0 < (bucketOf (categorizeCommits commits) b).length
      ↔ ∃ c ∈ commits, classify c = b := by
  rw [bucketOf_categorizeCommits]
  simp [List.length_pos_iff_exists_mem, List.mem_filter]

/-- C5. The suggested bump type of `suggestNextVersion` is `"major"`
exactly when some commit since the last tag classifies as breaking,
`"minor"` exactly when none is breaking but some commit classifies as a
feature, and `"patch"` exactly when neither bucket is inhabited. -/
theorem suggestNextVersion_bump_decision (cur : SemVer) (commits : List Commit) :
    ((suggestNextVersion cur commits).type = "major"
      ↔ ∃ c ∈ commits, classify c = Bucket.breaking)
    ∧ ((suggestNextVersion cur commits).type = "minor"
      ↔ (¬ ∃ c ∈ commits, classify c = Bucket.breaking)
        ∧ ∃ c ∈ commits, classify c = Bucket.features)
    ∧ ((suggestNextVersion cur commits).type = "patch"
      ↔ (¬ ∃ c ∈ commits, classify c = Bucket.breaking)
        ∧ ¬ ∃ c ∈ commits, classify c = Bucket.features) := by
  have hB := bucket_length_pos_iff commits Bucket.breaking
  have hF := bucket_length_pos_iff commits Bucket.features
  by_cases hb : 0 < (categorizeCommits commits).breaking.length
  · have hb' := hB.1 hb
    have ht : (suggestNextVersion cur commits).type = "major" := by
      simp [suggestNextVersion, hb]
    refine ⟨?_, ?_, ?_⟩
    · simp [ht, hb']
    · rw [ht]
      constructor
      · intro h; exact absurd h (by decide)
      · rintro ⟨hnb, -⟩; exact absurd hb' hnb
    · rw [ht]
      constructor
      · intro h; exact absurd h (by decide)
      · rintro ⟨hnb, -⟩; exact absurd hb' hnb
  · have hnb : ¬ ∃ c ∈ commits, classify c = Bucket.breaking :=
      fun h => hb (hB.2 h)
    by_cases hf : 0 < (categorizeCommits commits).features.length
    · have hf' := hF.1 hf
      have ht : (suggestNextVersion cur commits).type = "minor" := by
        simp [suggestNextVersion, hb, hf]
      refine ⟨?_, ?_, ?_⟩
      · rw [ht]
        constructor
        · intro h; exact absurd h (by decide)
        · intro h; exact absurd h hnb
      · simp [ht, hnb, hf']
      · rw [ht]
        constructor
        · intro h; exact absurd h (by decide)
        · rintro ⟨-, hnf⟩; exact absurd hf' hnf
    · have hnf : ¬ ∃ c ∈ commits, classify c = Bucket.features :=
        fun h => hf (hF.2 h)
      have ht : (suggestNextVersion cur commits).type = "patch" := by
        simp [suggestNextVersion, hb, hf]
      refine ⟨?_, ?_, ?_⟩
      · rw [ht]
        constructor
        · intro h; exact absurd h (by decide)
        · intro h; exact absurd h hnb
      · rw [ht]
        constructor
        · intro h; exact absurd h (by decide)
        · rintro ⟨-, hf'⟩; exact absurd hf' hnf
      · simp [ht, hnb, hnf]

/-- C5, witness: on the single commit `"feat: add login"` the suggested
bump is `"minor"`, via the minor clause of the decision theorem. -/
theorem suggestNextVersion_bump_decision_witness :
    (suggestNextVersion ⟨1, 2, 3⟩
      [⟨"h1", "feat: add login", "a", "d", ""⟩]).type = "minor" :=
  ((suggestNextVersion_bump_decision ⟨1, 2, 3⟩
      [⟨"h1", "feat: add login", "a", "d", ""⟩]).2.1).2
    ⟨by decide, by decide⟩

/-- C3, counterexample. With zero commits since the last tag, the
`suggest` operation does not report "nothing to release": it suggests a
patch bump (`1.0.0 → 1.0.1`) with commit count `0`, and its printed
output does not contain the phrase, case-insensitively. -/
theorem suggest_zero_commits_not_nothing_to_release :
    (suggestNextVersion ⟨1, 0, 0⟩ []).type = "patch"
    ∧ (suggestNextVersion ⟨1, 0, 0⟩ []).commits = 0
    ∧ strContains (strToLower (suggestCommandOutput ⟨1, 0, 0⟩ []))
        "nothing to release" = false := by
  refine ⟨rfl, rfl, ?_⟩
  decide

/-- C3, amended. With zero commits since the last tag: `suggest` and
`status` complete without error and leave an existing
`.version-history.json` unchanged, but they report a patch suggestion
with commit count `0` rather than "nothing to release"; only the
interactive `bump` flow reports "Nothing to release". -/
theorem zero_commits_behavior (cur : SemVer) (h : VersionHistory) (now : String) :
    (suggestCommand cur [] (some h)).2 = some h
    ∧ (suggestNextVersion cur []).type = "patch"
    ∧ (suggestNextVersion cur []).commits = 0
    ∧ (getVersionHistory (some h) now).2 = some h
    ∧ displayVersionStatusHistoryEffect (some h) now = some h
    ∧ interactiveVersionGate [] =
        .nothingToRelease "⚠️  No commits found since last tag. Nothing to release."
    ∧ strContains "⚠️  No commits found since last tag. Nothing to release."
        "Nothing to release" = true := by
  exact ⟨rfl, rfl, rfl, rfl, rfl, rfl, by decide⟩

/-- C7. The invariant `totalReleases = versions.length` holds for the
document written by `initVersionHistory` and is preserved by
`addVersionToHistory` from any on-disk document satisfying it. -/
theorem versionHistory_totalReleases_invariant (cur : SemVer)
    (h : VersionHistory) (v : SemVer) (t d now now₀ : String)
    (commits : List Commit)
    (hinv : h.totalReleases = h.versions.length) :
    (initialVersionHistory now₀).totalReleases
        = (initialVersionHistory now₀).versions.length
    ∧ ∃ h', (addVersionToHistory cur (some h) v t d commits now).2 = some h'
        ∧ h'.totalReleases = h'.versions.length := by
  refine ⟨rfl, ?_⟩
  exact ⟨_, rfl, by
    simp [addVersionToHistory, getVersionHistory, initVersionHistory, hinv]⟩

/-- C7, witness: the invariant theorem applied to the freshly initialized
history, recording release `1.0.1` over `1.0.0`. -/
theorem versionHistory_totalReleases_invariant_witness :
    ∃ h', (addVersionToHistory ⟨1, 0, 0⟩ (some (initialVersionHistory "t0"))
        ⟨1, 0, 1⟩ "patch" "d" [] "t1").2 = some h'
      ∧ h'.totalReleases = h'.versions.length :=
  (versionHistory_totalReleases_invariant ⟨1, 0, 0⟩ (initialVersionHistory "t0")
    ⟨1, 0, 1⟩ "patch" "d" "t1" "t0" [] rfl).2

/-- C9. `quickPatch` always bumps the patch component: its new version is
the patch increment of the current version for every commit history —
the commit classification (used only for the changelog text) never
changes the bump, and the recorded history entry is typed `"patch"`. -/
theorem quickPatch_always_patch (cur : SemVer) (disk : Option VersionHistory)
    (commits : List Commit) (description now : String) :
    (quickPatch cur disk commits description now).newVersion
        = .release (semverIncPatch cur)
    ∧ (quickPatch cur disk commits description now).historyEntry.type = "patch"
    ∧ ∀ commits' : List Commit,
        (quickPatch cur disk commits description now).newVersion
          = (quickPatch cur disk commits' description now).newVersion :=
  ⟨rfl, rfl, fun _ => rfl⟩

/-- C10. A commit contributes a bullet to the changelog entry exactly
when it occurs in the input and its bucket is not `other`: the entry is
rendered from the ten fixed sections, and commits classified `other` are
never listed. -/
theorem changelog_omits_other_bucket (commits : List Commit) (c : Commit) :
    c ∈ renderedCommits (categorizeCommits commits)
      ↔ (c ∈ commits ∧ classify c ≠ Bucket.other) := by
  have hmem : ∀ b : Bucket,
      c ∈ bucketOf (categorizeCommits commits) b
        ↔ (c ∈ commits ∧ classify c = b) := by
    intro b
    rw [bucketOf_categorizeCommits]
    simp [List.mem_filter]
  have hR : renderedCommits (categorizeCommits commits)
      = bucketOf (categorizeCommits commits) Bucket.breaking
        ++ bucketOf (categorizeCommits commits) Bucket.features
        ++ bucketOf (categorizeCommits commits) Bucket.fixes
        ++ bucketOf (categorizeCommits commits) Bucket.security
        ++ bucketOf (categorizeCommits commits) Bucket.performance
        ++ bucketOf (categorizeCommits commits) Bucket.docs
        ++ bucketOf (categorizeCommits commits) Bucket.refactor
        ++ bucketOf (categorizeCommits commits) Bucket.test
        ++ bucketOf (categorizeCommits commits) Bucket.style
        ++ bucketOf (categorizeCommits commits) Bucket.chore := by
    simp [renderedCommits, changelogSections, bucketOf]
  rw [hR]
  simp only [List.mem_append, hmem]
  cases hcl : classify c <;> simp [hcl]

/-- A list starts with itself followed by anything. -/
theorem startsList_append (l r : List Char) : startsList l (l ++ r) = true := by
  induction l with
  | nil => rfl
  | cons a s ih => simp [startsList, ih]

/-- A list that starts with `sub` contains `sub`. -/
theorem containsList_of_starts (sub l : List Char) (h : startsList sub l = true) :
    containsList sub l = true := by
  cases l with
  | nil => simpa [containsList] using h
  | cons a t => simp [containsList, h]

/-- `sub` occurs in any list of the shape `pre ++ sub ++ post`. -/
theorem containsList_append (pre sub post : List Char) :
    containsList sub (pre ++ (sub ++ post)) = true := by
  induction pre with
  | nil => exact containsList_of_starts _ _ (startsList_append sub post)
  | cons p ps ih => simp [containsList, ih]

/-- String-level corollary: the middle piece of a three-way concatenation
is contained in it. -/
theorem strContains_concat (pre s post : String) :
    strContains (pre ++ s ++ post) s = true := by
  show containsList s.data (pre ++ s ++ post).data = true
  rw [String.data_append, String.data_append, List.append_assoc]
  exact containsList_append pre.data s.data post.data

/-- C4, counterexample. The claim says `describe` fails with a
`NotFoundError` on unknown ids; the code's `getTemplateInfo` instead
returns `null` (here `none`) — both for an unknown category and for an
unknown template of a known category — so `describe` does not fail. -/
theorem describe_unknown_returns_null :
    getTemplateInfo "invalid" "template" = none
    ∧ getTemplateInfo "fe" "angular" = none := by
  constructor <;> decide

/-- C4, amended. For an unknown category id, `generatePRD` (materialize)
throws an error whose message contains the id with the filesystem
untouched, and `getTemplateInfo` (describe) returns `null`;
`getAvailableTemplates` (listTemplates) throws with the id in the message
for an unknown id that is truthy (non-empty), while the empty string —
falsy under the code's `if (!category)` guard — takes the no-argument
branch and returns the full composite list. For an unknown template id in
a known category, `generatePRD` throws with the id in the message and no
filesystem write, and `getTemplateInfo` returns `null`. -/
theorem unknown_id_errors (dirn : String) (fs : Fsys) (c t dest : String) :
    (TEMPLATE_STRUCTURE.lookup c = none →
      generatePRD dirn fs c t dest
          = (.error ("Category \"" ++ c ++ "\" not found"), fs)
        ∧ strContains ("Category \"" ++ c ++ "\" not found") c = true
        ∧ (c ≠ "" → getAvailableTemplates (some c)
            = .error ("Category \"" ++ c ++ "\" not found"))
        ∧ getTemplateInfo c t = none)
    ∧ getAvailableTemplates (some "") = .ok allCompositeTemplates
    ∧ (∀ cat : TemplateCategory, TEMPLATE_STRUCTURE.lookup c = some cat →
        cat.children.lookup t = none →
        generatePRD dirn fs c t dest
            = (.error ("Template \"" ++ t ++ "\" not found in category \""
                ++ c ++ "\""), fs)
          ∧ strContains ("Template \"" ++ t ++ "\" not found in category \""
              ++ c ++ "\"") t = true
          ∧ getTemplateInfo c t = none) := by
  refine ⟨?_, ?_, ?_⟩
  · intro h
    refine ⟨?_, ?_, ?_, ?_⟩
    · simp [generatePRD, h]
    · exact strContains_concat "Category \"" c "\" not found"
    · intro hne
      simp [getAvailableTemplates, hne, h]
    · simp [getTemplateInfo, h]
  · simp [getAvailableTemplates]
  · intro cat hc ht
    refine ⟨?_, ?_, ?_⟩
    · simp [generatePRD, hc, ht]
    · have := strContains_concat "Template \"" t
        ("\" not found in category \"" ++ c ++ "\"")
      simpa [String.append_assoc] using this
    · simp [getTemplateInfo, hc, ht]

/-- C4, witness: `materialize("invalid","template","/tmp/x")` on an empty
filesystem throws the category error containing `"invalid"` with the
filesystem unchanged, and `listTemplates("invalid")` — a truthy unknown
id — throws the same error. -/
theorem unknown_id_errors_witness :
    generatePRD "/pkg" ⟨[], []⟩ "invalid" "template" "/tmp/x"
      = (.error "Category \"invalid\" not found", ⟨[], []⟩)
    ∧ strContains "Category \"invalid\" not found" "invalid" = true
    ∧ getAvailableTemplates (some "invalid")
      = .error "Category \"invalid\" not found" :=
  have h := (unknown_id_errors "/pkg" ⟨[], []⟩ "invalid" "template" "/tmp/x").1
    (by decide)
  ⟨h.1, h.2.1, h.2.2.1 (by decide)⟩

/-- C6. For a known `(category, template)` pair whose registered source
file exists, `generatePRD` copies that file's content to
`{targetDir}/.github/instructions.md` (the `.github` directory is
ensured), returns that destination path, and the destination afterwards
holds exactly the source content — regardless of what, if anything, was
previously at the destination (overwrite without confirmation). -/
theorem materialize_known_pair (dirn : String) (fs : Fsys) (c t dest : String)
    (cat : TemplateCategory) (te : TemplateEntry) (content : String)
    (hc : TEMPLATE_STRUCTURE.lookup c = some cat)
    (ht : cat.children.lookup t = some te)
    (hs : fs.read (pathJoin dirn te.source) = some content) :
    ∃ fs' : Fsys,
      generatePRD dirn fs c t dest
        = (.ok (pathJoin dest ".github/instructions.md"), fs')
      ∧ fs'.read (pathJoin dest ".github/instructions.md") = some content
      ∧ fs'.dirs = pathJoin dest ".github" :: fs.dirs := by
  refine ⟨(fs.ensureDir (pathJoin dest ".github")).write
      (pathJoin dest ".github/instructions.md") content, ?_, ?_, rfl⟩
  · simp [generatePRD, hc, ht, hs]
  · simp [Fsys.read, Fsys.write, Fsys.ensureDir, List.lookup]

/-- C6, witness: materializing `fe/react` from a filesystem holding the
registered react source document produces that document at
`/tmp/x/.github/instructions.md`. -/
theorem materialize_known_pair_witness :
    ∃ fs' : Fsys,
      generatePRD "/pkg"
          ⟨[("/pkg/templates/fe/react/instructions.md", "REACT DOC")], []⟩
          "fe" "react" "/tmp/x"
        = (.ok (pathJoin "/tmp/x" ".github/instructions.md"), fs')
      ∧ fs'.read (pathJoin "/tmp/x" ".github/instructions.md") = some "REACT DOC"
      ∧ fs'.dirs = [pathJoin "/tmp/x" ".github"] :=
  materialize_known_pair "/pkg"
    ⟨[("/pkg/templates/fe/react/instructions.md", "REACT DOC")], []⟩
    "fe" "react" "/tmp/x" feCategory reactEntry "REACT DOC"
    (by decide) (by decide) (by decide)

/-- C8. Against the registry as written in `index.js`:
`getAvailableTemplates` with no argument returns exactly the five
`category/template` composites in registry order, and with each known
category returns that category's template identifiers in order. -/
theorem listTemplates_fixture_catalog :
    getAvailableTemplates none
        = .ok ["fe/react", "fe/vanilla", "be/node-express",
               "be/python-django", "github/workflows"]
    ∧ getAvailableCategories = ["fe", "be", "github"]
    ∧ getAvailableTemplates (some "fe") = .ok ["react", "vanilla"]
    ∧ getAvailableTemplates (some "be") = .ok ["node-express", "python-django"]
    ∧ getAvailableTemplates (some "github") = .ok ["workflows"] := by
  refine ⟨?_, ?_, ?_, ?_, ?_⟩ <;>
    simp [getAvailableTemplates, allCompositeTemplates, getAvailableCategories,
      TEMPLATE_STRUCTURE, feCategory, beCategory, githubCategory, List.lookup]

/-- C10, witness: the commit `"update readme"` classifies into the
`other` bucket and is absent from the rendered changelog commits. -/
theorem changelog_omits_other_bucket_witness :
    (⟨"h2", "update readme", "a", "d", ""⟩ : Commit) ∉
      renderedCommits (categorizeCommits
        [⟨"h2", "update readme", "a", "d", ""⟩]) :=
  fun hm =>
    ((changelog_omits_other_bucket [⟨"h2", "update readme", "a", "d", ""⟩]
        ⟨"h2", "update readme", "a", "d", ""⟩).1 hm).2 (by decide)

end ThrilledVibe
